import Mathlib

/-!
Verification of the trade-mvp signal pipeline core.

Shallow embedding of the repository's core logic:
  * `src/portfolio/positions.py` — the Ledger (`open_position`, `close_position`)
    and the Position Sizer (`calculate_position_size`);
  * `src/pipeline.py` — configuration constants, `zscore`, the Screener,
    the squeeze factor, the Exit Engine loop (step 9), the duplicate-BUY
    exclusion (step 10) and the Ledger update (step 12).

Numeric conventions: Python floats are modelled as exact rationals `ℚ`
(for money, prices, returns and thresholds) and as reals `ℝ` where the code
takes a square root (the z-score's standard deviation).  Calendar dates are
modelled as integer day ordinals, so `(today - entry_date).days` becomes
integer subtraction.  Pandas `Series.get(t, default)` lookups are modelled
as `Option`-valued maps read through `Option.getD`.
-/

namespace TradeMVP

/-! ## Ledger data model (src/portfolio/positions.py)

A row of the positions DataFrame: ticker, integer quantity, entry price,
entry date (integer day ordinal standing for the parsed ISO date). -/

structure Position where
  ticker : String
  qty : Int
  entry_price : ℚ
  entry_date : Int
deriving DecidableEq, Repr

/-- PORTFOLIO_EQUITY constant of positions.py (simulated capital, USD). -/
def PORTFOLIO_EQUITY : ℚ := 100000

/-- RISK_PER_TRADE constant of positions.py (1% of equity per trade). -/
def RISK_PER_TRADE : ℚ := 1/100

/-- calculate_position_size of positions.py: qty = floor(max_risk / risk_per_share)
with guards for non-positive entry price, stop distance and risk per share,
a round-up-to-1 branch when the floor is 0 but the budget exceeds one share's
risk, and a final max(0, qty). -/
def calculate_position_size (entry_price stop_loss_pct : ℚ) : Int :=
  if entry_price ≤ 0 ∨ stop_loss_pct ≤ 0 then 0
  else
    let max_risk_usd := PORTFOLIO_EQUITY * RISK_PER_TRADE
    let risk_per_share := entry_price * stop_loss_pct
    if risk_per_share ≤ 0 then 0
    else
      let qty0 : Int := ⌊max_risk_usd / risk_per_share⌋
      let qty1 : Int := if qty0 < 1 ∧ max_risk_usd > risk_per_share then 1 else qty0
      max 0 qty1

/-- open_position of positions.py: refuses qty ≤ 0 (warning + unchanged frame),
otherwise appends a new row via pd.concat — with no check whether the ticker
already has an open row. -/
def open_position (df : List Position) (ticker : String) (qty : Int)
    (entry_price : ℚ) (entry_date : Int) : List Position :=
  if qty ≤ 0 then df
  else df ++ [{ ticker := ticker, qty := qty, entry_price := entry_price,
                entry_date := entry_date }]

/-- close_position of positions.py: drops every row whose ticker matches
(df.drop of the matching index); an absent ticker leaves the frame unchanged. -/
def close_position (df : List Position) (ticker : String) : List Position :=
  df.filter (fun p => p.ticker ≠ ticker)

/-! ## Pipeline configuration constants (src/pipeline.py, Settings block) -/

def MIN_PRICE : ℚ := 5
def MIN_AVG_VOL_20D : ℚ := 2000000
def HOLD_DAYS_MAX : Int := 3
def STOP_LOSS : ℚ := 8/100
def TAKE_PROFIT : ℚ := 5/100
def SENT_EXIT_MIN : ℚ := 20/100

/-- The five ranking channel weights of pipeline.py as one record, so that
claims quantifying over weight configurations can be stated. -/
structure Weights where
  w_mom : ℚ
  w_rs : ℚ
  w_news : ℚ
  w_reddit : ℚ
  w_squeeze : ℚ
deriving DecidableEq, Repr

/-- The shipped weight constants W_MOM..W_SQUEEZE of pipeline.py
(0.30, 0.30, 0.20, 0.10, 0.10). -/
def pipelineWeights : Weights :=
  { w_mom := 30/100, w_rs := 30/100, w_news := 20/100,
    w_reddit := 10/100, w_squeeze := 10/100 }

def weightsSum (w : Weights) : ℚ :=
  w.w_mom + w.w_rs + w.w_news + w.w_reddit + w.w_squeeze

/-- Modelled from the source: the only aborts main() performs before any file
is written are `raise SystemExit` on an empty univ (pipeline.py lines
74-76) and on missing price data (lines 81-83).  No code path inspects the
weight constants; the `Weights` argument is threaded only so that statements
about configuration-load-time checking can be expressed. -/
def mainAborts (_w : Weights) (univ : List String) (hasPriceData : Bool) : Bool :=
  univ.isEmpty || !hasPriceData

/-! ## z-score (pipeline.py, `zscore`)

`mu, sd = s.mean(), s.std(ddof=0)`; `(s - mu) / sd if (sd and sd > 0) else s * 0`.
The population standard deviation needs a square root, so this part of the
embedding lives in `ℝ`. -/

noncomputable def listMean (s : List ℝ) : ℝ := s.sum / s.length

/-- Population variance (pandas std(ddof=0) squared): denominator N, not N-1. -/
noncomputable def listVar (s : List ℝ) : ℝ :=
  ((s.map (fun x => (x - listMean s) ^ 2)).sum) / s.length

noncomputable def listStd (s : List ℝ) : ℝ := Real.sqrt (listVar s)

/-- zscore of pipeline.py: `(s - mu)/sd` when `sd and sd > 0`, else `s * 0`
(elementwise multiplication by zero). -/
noncomputable def zscore (s : List ℝ) : List ℝ :=
  if 0 < listStd s then s.map (fun x => (x - listMean s) / listStd s)
  else s.map (fun x => x * 0)

/-! ## Squeeze factor (pipeline.py, step 6)

`squeeze_score = si_z.clip(lower=0) * r5_z_all...clip(lower=0)`, elementwise;
per ticker this is the product of the two clipped z-scores. -/

/-- pandas `clip(lower=0)` on a single value. -/
noncomputable def clipLower0 (x : ℝ) : ℝ := max x 0

/-- Per-ticker squeeze score: clipped short-interest z-score times clipped
momentum z-score. -/
noncomputable def squeeze_score (si_z r5_z : ℝ) : ℝ := clipLower0 si_z * clipLower0 r5_z

/-! ## Run environment

The per-run market data main() reads, as partial maps keyed by ticker:
`last_close` (today's closes after dropna), `last_avg_vol20` (trailing 20d
average volume, possibly NaN ⇒ `none`), `r5_today` (5-day return),
`news_today`/`reddit_today` normalized sentiment rows for the current date,
and today's date as a day ordinal. -/

structure PipeEnv where
  lastClose : String → Option ℚ
  avgVol20 : String → Option ℚ
  r5 : String → Option ℚ
  newsNorm : String → Option ℚ
  redditNorm : String → Option ℚ
  today : Int

/-- `Series.get(t, 0.0)` with a missing row defaulting to 0.0 (this is also
what the 0.0-prefilled `s_news`/`s_redd` series of step 7 produce). -/
def getD0 (f : String → Option ℚ) (t : String) : ℚ := (f t).getD 0

/-- `blended_sent = 0.6 * sn + 0.4 * sr` (pipeline.py line 262). -/
def blendedSent (env : PipeEnv) (t : String) : ℚ :=
  6/10 * getD0 env.newsNorm t + 4/10 * getD0 env.redditNorm t

/-! ## Exit Engine (pipeline.py, step 9) -/

/-- The `do_sell` flag: true when any of the five trigger conditions holds
(each `if` in the source sets `do_sell=True`). -/
def doSell (pnl r5 blended : ℚ) (days_held : Int) : Bool :=
  decide (pnl ≤ -STOP_LOSS) || decide (pnl ≥ TAKE_PROFIT) || decide (r5 ≤ 0) ||
  decide (blended < SENT_EXIT_MIN) || decide (days_held ≥ HOLD_DAYS_MAX)

/-- The `triggers` list: every firing condition appends its formatted reason
string (the f-strings of lines 265-270, evaluated at the shipped constants). -/
def exitTriggers (pnl r5 blended : ℚ) (days_held : Int) : List String :=
  (if pnl ≤ -STOP_LOSS then ["stop -8%"] else []) ++
  (if pnl ≥ TAKE_PROFIT then ["take +5%"] else []) ++
  (if r5 ≤ 0 then ["momentum<=0"] else []) ++
  (if blended < SENT_EXIT_MIN then ["sent_norm<0.20"] else []) ++
  (if days_held ≥ HOLD_DAYS_MAX then ["time>3d"] else [])

/-- A SELL row of the signal table (the fields the claims are about; the
source serializes `reasons` with `"; ".join(triggers)`). -/
structure SellRow where
  ticker : String
  qty : Int
  price : ℚ
  reasons : List String
deriving DecidableEq, Repr

/-- One iteration of the SELL loop for one position row `pos`, acting on the
accumulated (working ledger, sell rows) state: skip when the ticker has no
current close (`continue`), otherwise evaluate the five triggers and, on a
sell, emit the row and `close_position` the ticker in the working ledger. -/
def sellStep (env : PipeEnv) (acc : List Position × List SellRow)
    (pos : Position) : List Position × List SellRow :=
  match env.lastClose pos.ticker with
  | none => acc
  | some price =>
      let pnl := (price - pos.entry_price) / pos.entry_price
      let r5 := getD0 env.r5 pos.ticker
      let blended := blendedSent env pos.ticker
      let days_held := env.today - pos.entry_date
      if doSell pnl r5 blended days_held then
        (close_position acc.1 pos.ticker,
         acc.2 ++ [{ ticker := pos.ticker, qty := pos.qty, price := price,
                     reasons := exitTriggers pnl r5 blended days_held }])
      else acc

/-- Step 9 in full: iterate over the loaded positions (the iteration is over
the original rows; closes are applied to the evolving working ledger). -/
def exitEngine (env : PipeEnv) (positions : List Position) :
    List Position × List SellRow :=
  positions.foldl (sellStep env) (positions, [])

/-! ## Screener (pipeline.py, lines 88-94) -/

/-- `last_close = close.loc[today].dropna()`: the tickers of the univ
that have a close for the target date. -/
def lastCloseIdx (env : PipeEnv) (univ : List String) : List String :=
  univ.filter (fun t => (env.lastClose t).isSome)

/-- The price+volume floor: `(last_close > MIN_PRICE) & (last_avg_vol20 >
MIN_AVG_VOL_20D)`; a NaN average volume compares false. -/
def screenerPassing (env : PipeEnv) (univ : List String) : List String :=
  (lastCloseIdx env univ).filter (fun t =>
    match env.lastClose t, env.avgVol20 t with
    | some c, some v => decide (MIN_PRICE < c) && decide (MIN_AVG_VOL_20D < v)
    | _, _ => false)

/-- The screen with its fallback: fewer than 10 passing tickers ⇒ return
every ticker of the snapshot (`last_close.index.tolist()`). -/
def screener (env : PipeEnv) (univ : List String) : List String :=
  if (screenerPassing env univ).length < 10 then lastCloseIdx env univ
  else screenerPassing env univ

/-! ## BUY/HOLD rows, duplicate-BUY exclusion, Ledger update
(pipeline.py, steps 8, 10 and 12) -/

/-- A BUY/HOLD row of the signal table (the fields steps 10 and 12 read:
row[1] = ticker, row[2] = action, row[4] = entry price). -/
structure Row where
  ticker : String
  action : String
  entry_price : ℚ
deriving DecidableEq, Repr

/-- Step 8 (the decision-relevant fields): one row per screened ticker,
action BUY exactly for members of `buy_set`, entry price
`float(last_close.get(t, 0.0))`. -/
def buildRows (env : PipeEnv) (screened buySet : List String) : List Row :=
  screened.map (fun t =>
    { ticker := t,
      action := if t ∈ buySet then "BUY" else "HOLD",
      entry_price := getD0 env.lastClose t })

/-- Step 10: `if row[1] in open_set and row[2] == "BUY": row[2] = "HOLD"`. -/
def forceHolds (openTickers : List String) (rows : List Row) : List Row :=
  rows.map (fun r =>
    if r.ticker ∈ openTickers ∧ r.action = "BUY" then { r with action := "HOLD" }
    else r)

/-- Step 12: every remaining BUY row is opened with the hard-coded quantity 1
(`open_position(updated, t, 1, float(entry_price), d)`). -/
def applyBuys (today : Int) (led : List Position) (rows : List Row) : List Position :=
  rows.foldl (fun u r =>
    if r.action = "BUY" then open_position u r.ticker 1 r.entry_price today else u)
    led

/-- The Ledger that step 12 hands to save_positions: Exit Engine closes, then
the duplicate-BUY exclusion against the post-close open set, then apply the
BUYs built from the screened univ. -/
def pipelineEndLedger (env : PipeEnv) (univ buySet : List String)
    (positions : List Position) : List Position :=
  let rows := buildRows env (screener env univ) buySet
  let afterExit := (exitEngine env positions).1
  let openTickers := afterExit.map Position.ticker
  applyBuys env.today afterExit (forceHolds openTickers rows)

/-! ## Theorems -/

theorem sizer_eq_floor (e s : ℚ) (he : 0 < e) (hs : 0 < s) :
    calculate_position_size e s = ⌊PORTFOLIO_EQUITY * RISK_PER_TRADE / (e * s)⌋ := by
  have hmr : (0:ℚ) < PORTFOLIO_EQUITY * RISK_PER_TRADE := by
    norm_num [PORTFOLIO_EQUITY, RISK_PER_TRADE]
  have hrps : (0:ℚ) < e * s := mul_pos he hs
  simp only [calculate_position_size]
  rw [if_neg (by push_neg; exact ⟨he, hs⟩), if_neg (not_le.mpr hrps)]
  split_ifs with h3
  · exfalso
    have h1le : (1:ℚ) ≤ PORTFOLIO_EQUITY * RISK_PER_TRADE / (e * s) :=
      (one_le_div hrps).mpr (le_of_lt h3.2)
    have : (1:ℤ) ≤ ⌊PORTFOLIO_EQUITY * RISK_PER_TRADE / (e * s)⌋ :=
      Int.le_floor.mpr (by exact_mod_cast h1le)
    omega
  · exact max_eq_right (Int.floor_nonneg.mpr (le_of_lt (div_pos hmr hrps)))

/-- C6: the Position Sizer computes qty = floor((portfolio_equity *
risk_per_trade_pct) / (entry_price * stop_loss_pct)); it returns 0 whenever
entry_price ≤ 0 or stop_loss_pct ≤ 0 or risk_per_share ≤ 0; if the floored
quantity is 0 but max_risk strictly exceeds risk_per_share it returns 1
(in exact arithmetic that antecedent never arises, since max_risk >
risk_per_share > 0 already forces the floor ≥ 1 — the branch is vacuously
honoured); the result is never negative; size(100, 0.08) = 125 with the
shipped equity 100000 and risk 0.01; and size(100, 0.00001) is at least 1. -/
theorem position_sizer_spec :
    (∀ e s : ℚ, e ≤ 0 ∨ s ≤ 0 ∨ e * s ≤ 0 → calculate_position_size e s = 0) ∧
    (∀ e s : ℚ, 0 < e → 0 < s →
      calculate_position_size e s = ⌊PORTFOLIO_EQUITY * RISK_PER_TRADE / (e * s)⌋) ∧
    (∀ e s : ℚ, 0 < e → 0 < s → ⌊PORTFOLIO_EQUITY * RISK_PER_TRADE / (e * s)⌋ = 0 →
      PORTFOLIO_EQUITY * RISK_PER_TRADE > e * s → calculate_position_size e s = 1) ∧
    (∀ e s : ℚ, 0 ≤ calculate_position_size e s) ∧
    calculate_position_size 100 (8/100) = 125 ∧
    1 ≤ calculate_position_size 100 (1/100000) := by
  refine ⟨?_, fun e s he hs => sizer_eq_floor e s he hs, ?_, ?_, ?_, ?_⟩
  · intro e s h
    simp only [calculate_position_size]
    split_ifs with h1 h2 h3
    · rfl
    · rfl
    all_goals
      exfalso
      push_neg at h1
      rcases h with h | h | h
      · exact absurd h (not_le.mpr h1.1)
      · exact absurd h (not_le.mpr h1.2)
      · exact h2 h
  · intro e s he hs hfl hgt
    exfalso
    have hrps : (0:ℚ) < e * s := mul_pos he hs
    have h1le : (1:ℚ) ≤ PORTFOLIO_EQUITY * RISK_PER_TRADE / (e * s) :=
      (one_le_div hrps).mpr (le_of_lt hgt)
    have : (1:ℤ) ≤ ⌊PORTFOLIO_EQUITY * RISK_PER_TRADE / (e * s)⌋ :=
      Int.le_floor.mpr (by exact_mod_cast h1le)
    omega
  · intro e s
    simp only [calculate_position_size]
    split_ifs <;> simp [le_max_left]
  · rw [sizer_eq_floor 100 (8/100) (by norm_num) (by norm_num)]
    rw [show PORTFOLIO_EQUITY * RISK_PER_TRADE / ((100:ℚ) * (8/100)) = ((125:ℤ):ℚ) by
      norm_num [PORTFOLIO_EQUITY, RISK_PER_TRADE]]
    exact Int.floor_intCast 125
  · rw [sizer_eq_floor 100 (1/100000) (by norm_num) (by norm_num)]
    rw [show PORTFOLIO_EQUITY * RISK_PER_TRADE / ((100:ℚ) * (1/100000)) = ((1000000:ℤ):ℚ) by
      norm_num [PORTFOLIO_EQUITY, RISK_PER_TRADE]]
    rw [Int.floor_intCast]
    norm_num

/-- C6 witness: the guard and the main floor formula evaluated at concrete
inputs through the theorem itself. -/
theorem position_sizer_spec_witness :
    ((-1:ℚ) ≤ 0 ∨ (8/100:ℚ) ≤ 0 ∨ (-1:ℚ) * (8/100) ≤ 0) ∧
    calculate_position_size (-1) (8/100) = 0 ∧
    (0:ℚ) < 100 ∧ (0:ℚ) < 8/100 ∧
    calculate_position_size 100 (8/100) =
      ⌊PORTFOLIO_EQUITY * RISK_PER_TRADE / ((100:ℚ) * (8/100))⌋ :=
  ⟨Or.inl (by norm_num),
   position_sizer_spec.1 (-1) (8/100) (Or.inl (by norm_num)),
   by norm_num, by norm_num,
   position_sizer_spec.2.1 100 (8/100) (by norm_num) (by norm_num)⟩

/-- C1 counterexample: the Ledger already holds an open AAPL position, yet
open_position with AAPL returns a changed Ledger (a second AAPL row is
appended), so `open_position` is not idempotent on already-open tickers. -/
theorem open_position_not_idempotent :
    open_position [{ ticker := "AAPL", qty := 1, entry_price := 100, entry_date := 0 }]
        "AAPL" 1 100 0 ≠
      [{ ticker := "AAPL", qty := 1, entry_price := 100, entry_date := 0 }] := by
  intro h
  have hlen := congrArg List.length h
  simp [open_position] at hlen

/-- C1 amended: open_position ignores existing rows entirely — it is a no-op
exactly when qty ≤ 0, and for qty > 0 it always appends a new row, even when
the ticker already has an open position (duplicate-BUY prevention lives in
the Orchestrator's step 10, not in the Ledger operation). -/
theorem open_position_appends (df : List Position) (t : String) (q : Int)
    (p : ℚ) (d : Int) :
    (q ≤ 0 → open_position df t q p d = df) ∧
    (0 < q → open_position df t q p d =
      df ++ [{ ticker := t, qty := q, entry_price := p, entry_date := d }]) := by
  constructor
  · intro h
    simp [open_position, h]
  · intro h
    rw [open_position, if_neg (not_le.mpr h)]

/-- C1 amended, witness: appending behaviour at a concrete call. -/
theorem open_position_appends_witness :
    (0:Int) < 1 ∧
    open_position [{ ticker := "MSFT", qty := 2, entry_price := 50, entry_date := 0 }]
        "MSFT" 1 100 3 =
      [{ ticker := "MSFT", qty := 2, entry_price := 50, entry_date := 0 },
       { ticker := "MSFT", qty := 1, entry_price := 100, entry_date := 3 }] :=
  ⟨by decide,
   (open_position_appends
      [{ ticker := "MSFT", qty := 2, entry_price := 50, entry_date := 0 }]
      "MSFT" 1 100 3).2 (by decide)⟩

/-- C5 counterexample: a weight configuration summing to 5/2 instead of 1 is
not rejected — main's only aborts are the empty-universe and no-price-data
checks, which pass a misconfigured weight set straight through. -/
theorem weights_never_checked :
    weightsSum { w_mom := 1/2, w_rs := 1/2, w_news := 1/2, w_reddit := 1/2,
                 w_squeeze := 1/2 } ≠ 1 ∧
    mainAborts { w_mom := 1/2, w_rs := 1/2, w_news := 1/2, w_reddit := 1/2,
                 w_squeeze := 1/2 } ["AAPL"] true = false := by
  constructor
  · norm_num [weightsSum]
  · rfl

/-- C5 amended: the shipped weight constants do sum to exactly 1.0, but the
sum is asserted only in a comment: no configuration-load-time check exists,
and main's abort behaviour is independent of the weight configuration. -/
theorem weights_sum_one :
    weightsSum pipelineWeights = 1 ∧
    ∀ (w : Weights) (univ : List String) (b : Bool),
      mainAborts w univ b = mainAborts pipelineWeights univ b :=
  ⟨by norm_num [weightsSum, pipelineWeights], fun _ _ _ => rfl⟩

/-- C8: the squeeze score equals max(0, short_interest_z) * max(0, momentum_z),
is never negative, and is exactly 0 whenever either z-score is ≤ 0. -/
theorem squeeze_score_spec :
    (∀ a b : ℝ, squeeze_score a b = max 0 a * max 0 b) ∧
    (∀ a b : ℝ, 0 ≤ squeeze_score a b) ∧
    (∀ a b : ℝ, a ≤ 0 ∨ b ≤ 0 → squeeze_score a b = 0) := by
  refine ⟨?_, ?_, ?_⟩
  · intro a b
    rw [squeeze_score, clipLower0, clipLower0, max_comm a 0, max_comm b 0]
  · intro a b
    exact mul_nonneg (le_max_right a 0) (le_max_right b 0)
  · intro a b h
    rcases h with h | h
    · rw [squeeze_score, clipLower0, max_eq_right h, zero_mul]
    · rw [squeeze_score, clipLower0, clipLower0, max_eq_right h, mul_zero]

/-- C8 witness: a below-average-momentum name gets squeeze 0 even with high
short interest. -/
theorem squeeze_score_spec_witness :
    ((2:ℝ) ≤ 0 ∨ (-1:ℝ) ≤ 0) ∧ squeeze_score 2 (-1) = 0 :=
  ⟨Or.inr (by norm_num), squeeze_score_spec.2.2 2 (-1) (Or.inr (by norm_num))⟩

theorem listMean_replicate_succ (m : ℕ) (c : ℝ) :
    listMean (List.replicate (m + 1) c) = c := by
  rw [listMean, List.sum_replicate, List.length_replicate, nsmul_eq_mul,
    mul_div_cancel_left₀]
  exact_mod_cast Nat.succ_ne_zero m

theorem listVar_replicate (n : ℕ) (c : ℝ) : listVar (List.replicate n c) = 0 := by
  cases n with
  | zero => simp [listVar, listMean]
  | succ m =>
      rw [listVar, listMean_replicate_succ, List.map_replicate]
      simp

theorem listStd_replicate (n : ℕ) (c : ℝ) : listStd (List.replicate n c) = 0 := by
  rw [listStd, listVar_replicate, Real.sqrt_zero]

/-- C7: the z-score outputs (x - mean)/std per element when the population
standard deviation is strictly positive, and outputs 0 for every element
when it is 0; constant series of any length (in particular singletons) have
standard deviation 0, so they map to all zeros.  The `ℝ`-valued model is
total, so no NaN or Inf arises in the guarded branch. -/
theorem zscore_spec :
    (∀ s : List ℝ, 0 < listStd s →
      zscore s = s.map (fun x => (x - listMean s) / listStd s)) ∧
    (∀ s : List ℝ, listStd s = 0 → ∀ y ∈ zscore s, y = 0) ∧
    (∀ (n : ℕ) (c : ℝ), listStd (List.replicate n c) = 0) ∧
    (∀ x : ℝ, listStd [x] = 0) := by
  refine ⟨?_, ?_, listStd_replicate, fun x => by simpa using listStd_replicate 1 x⟩
  · intro s h
    rw [zscore, if_pos h]
  · intro s h y hy
    rw [zscore, if_neg (by rw [h]; exact lt_irrefl 0)] at hy
    obtain ⟨x, _, rfl⟩ := List.mem_map.mp hy
    exact mul_zero x

/-- C7 witness: a spread series takes the (x - mean)/std form, a constant
series z-scores to all zeros. -/
theorem zscore_spec_witness :
    (0 < listStd [(0:ℝ), 2] ∧
      zscore [(0:ℝ), 2] = [((0:ℝ) - listMean [(0:ℝ), 2]) / listStd [(0:ℝ), 2],
                           ((2:ℝ) - listMean [(0:ℝ), 2]) / listStd [(0:ℝ), 2]]) ∧
    (listStd (List.replicate 3 (7:ℝ)) = 0 ∧
      ∀ y ∈ zscore (List.replicate 3 (7:ℝ)), y = 0) := by
  have hv : listVar [(0:ℝ), 2] = 1 := by
    norm_num [listVar, listMean]
  have h1 : 0 < listStd [(0:ℝ), 2] := by
    rw [listStd, hv, Real.sqrt_one]
    norm_num
  refine ⟨⟨h1, ?_⟩, zscore_spec.2.2.1 3 7,
    zscore_spec.2.1 _ (zscore_spec.2.2.1 3 7)⟩
  rw [zscore_spec.1 _ h1]
  rfl

theorem mem_ite_singleton {c : Prop} [Decidable c] (a b : String) :
    a ∈ (if c then [b] else ([] : List String)) ↔ c ∧ a = b := by
  split_ifs with h <;> simp [h]

theorem doSell_iff_conditions (pnl r5 blended : ℚ) (dh : Int) :
    doSell pnl r5 blended dh = true ↔
      (pnl ≤ -STOP_LOSS ∨ TAKE_PROFIT ≤ pnl ∨ r5 ≤ 0 ∨
        blended < SENT_EXIT_MIN ∨ HOLD_DAYS_MAX ≤ dh) := by
  simp only [doSell, Bool.or_eq_true, decide_eq_true_eq, ge_iff_le]
  tauto

theorem stop_mem_triggers_iff (pnl r5 blended : ℚ) (dh : Int) :
    "stop -8%" ∈ exitTriggers pnl r5 blended dh ↔ pnl ≤ -STOP_LOSS := by
  simp [exitTriggers, mem_ite_singleton]

theorem take_mem_triggers_iff (pnl r5 blended : ℚ) (dh : Int) :
    "take +5%" ∈ exitTriggers pnl r5 blended dh ↔ TAKE_PROFIT ≤ pnl := by
  simp [exitTriggers, mem_ite_singleton, ge_iff_le]

theorem mom_mem_triggers_iff (pnl r5 blended : ℚ) (dh : Int) :
    "momentum<=0" ∈ exitTriggers pnl r5 blended dh ↔ r5 ≤ 0 := by
  simp [exitTriggers, mem_ite_singleton]

theorem sent_mem_triggers_iff (pnl r5 blended : ℚ) (dh : Int) :
    "sent_norm<0.20" ∈ exitTriggers pnl r5 blended dh ↔ blended < SENT_EXIT_MIN := by
  simp [exitTriggers, mem_ite_singleton]

theorem time_mem_triggers_iff (pnl r5 blended : ℚ) (dh : Int) :
    "time>3d" ∈ exitTriggers pnl r5 blended dh ↔ HOLD_DAYS_MAX ≤ dh := by
  simp [exitTriggers, mem_ite_singleton, ge_iff_le]

theorem doSell_iff_triggers_ne_nil (pnl r5 blended : ℚ) (dh : Int) :
    doSell pnl r5 blended dh = true ↔ exitTriggers pnl r5 blended dh ≠ [] := by
  rw [doSell_iff_conditions]
  constructor
  · intro h heq
    rcases h with h | h | h | h | h
    · exact absurd ((stop_mem_triggers_iff pnl r5 blended dh).mpr h)
        (by rw [heq]; exact List.not_mem_nil _)
    · exact absurd ((take_mem_triggers_iff pnl r5 blended dh).mpr h)
        (by rw [heq]; exact List.not_mem_nil _)
    · exact absurd ((mom_mem_triggers_iff pnl r5 blended dh).mpr h)
        (by rw [heq]; exact List.not_mem_nil _)
    · exact absurd ((sent_mem_triggers_iff pnl r5 blended dh).mpr h)
        (by rw [heq]; exact List.not_mem_nil _)
    · exact absurd ((time_mem_triggers_iff pnl r5 blended dh).mpr h)
        (by rw [heq]; exact List.not_mem_nil _)
  · intro hne
    by_contra hall
    push_neg at hall
    obtain ⟨h1, h2, h3, h4, h5⟩ := hall
    exact hne (by
      rw [exitTriggers, if_neg (not_le.mpr h1), if_neg (not_le.mpr h2),
        if_neg (not_le.mpr h3), if_neg (not_lt.mpr h4), if_neg (not_le.mpr h5)]
      rfl)

theorem sellStep_no_price (env : PipeEnv) (acc : List Position × List SellRow)
    (pos : Position) (h : env.lastClose pos.ticker = none) :
    sellStep env acc pos = acc := by
  simp [sellStep, h]

theorem sellStep_price (env : PipeEnv) (acc : List Position × List SellRow)
    (pos : Position) (price : ℚ) (h : env.lastClose pos.ticker = some price) :
    sellStep env acc pos =
      (if doSell ((price - pos.entry_price) / pos.entry_price)
            (getD0 env.r5 pos.ticker) (blendedSent env pos.ticker)
            (env.today - pos.entry_date) then
        (close_position acc.1 pos.ticker,
         acc.2 ++ [{ ticker := pos.ticker, qty := pos.qty, price := price,
                     reasons := exitTriggers ((price - pos.entry_price) / pos.entry_price)
                       (getD0 env.r5 pos.ticker) (blendedSent env pos.ticker)
                       (env.today - pos.entry_date) }])
      else acc) := by
  simp [sellStep, h]

theorem sellStep_fst_sublist (env : PipeEnv) (acc : List Position × List SellRow)
    (pos : Position) : (sellStep env acc pos).1.Sublist acc.1 := by
  cases h : env.lastClose pos.ticker with
  | none => rw [sellStep_no_price env acc pos h]
  | some price =>
      rw [sellStep_price env acc pos price h]
      split_ifs with hs
      · exact List.filter_sublist _
      · exact List.Sublist.refl _

theorem foldl_sellStep_fst_sublist (env : PipeEnv) (l : List Position)
    (acc : List Position × List SellRow) :
    (l.foldl (sellStep env) acc).1.Sublist acc.1 := by
  induction l generalizing acc with
  | nil => exact List.Sublist.refl _
  | cons p l ih => exact (ih (sellStep env acc p)).trans (sellStep_fst_sublist env acc p)

theorem ticker_not_mem_foldl (env : PipeEnv) (l : List Position)
    (acc : List Position × List SellRow) (t : String)
    (h : t ∉ acc.1.map Position.ticker) :
    t ∉ (l.foldl (sellStep env) acc).1.map Position.ticker := fun hmem =>
  h (((foldl_sellStep_fst_sublist env l acc).map Position.ticker).subset hmem)

theorem ticker_not_mem_close (df : List Position) (t : String) :
    t ∉ (close_position df t).map Position.ticker := by
  intro h
  obtain ⟨p, hp, hpt⟩ := List.mem_map.mp h
  rw [close_position] at hp
  exact absurd hpt (by simpa using (List.mem_filter.mp hp).2)

theorem no_price_pos_mem_foldl (env : PipeEnv) (l : List Position)
    (acc : List Position × List SellRow) (pos : Position)
    (hnp : env.lastClose pos.ticker = none) (hmem : pos ∈ acc.1) :
    pos ∈ (l.foldl (sellStep env) acc).1 := by
  induction l generalizing acc with
  | nil => exact hmem
  | cons q l ih =>
      rw [List.foldl_cons]
      apply ih
      cases hq : env.lastClose q.ticker with
      | none => rwa [sellStep_no_price env acc q hq]
      | some price =>
          rw [sellStep_price env acc q price hq]
          split_ifs with hs


          · rw [close_position]
            refine List.mem_filter.mpr ⟨hmem, ?_⟩
            simp only [decide_eq_true_eq]
            intro hteq
            rw [hteq, hq] at hnp
            exact Option.noConfusion hnp
          · exact hmem

theorem sold_ticker_not_mem_foldl (env : PipeEnv) (l : List Position)
    (acc : List Position × List SellRow) (pos : Position) (price : ℚ)
    (hmem : pos ∈ l) (hp : env.lastClose pos.ticker = some price)
    (hsell : doSell ((price - pos.entry_price) / pos.entry_price)
      (getD0 env.r5 pos.ticker) (blendedSent env pos.ticker)
      (env.today - pos.entry_date) = true) :
    pos.ticker ∉ (l.foldl (sellStep env) acc).1.map Position.ticker := by
  induction l generalizing acc with
  | nil => exact absurd hmem (List.not_mem_nil pos)
  | cons q l ih =>
      rw [List.foldl_cons]
      rcases List.mem_cons.mp hmem with rfl | hmem'
      · apply ticker_not_mem_foldl
        rw [sellStep_price env acc pos price hp, if_pos hsell]
        exact ticker_not_mem_close acc.1 pos.ticker
      · exact ih (sellStep env acc q) hmem'

/-- C4: for a position whose ticker has a current price, the Exit Engine
sells if and only if at least one of the five trigger conditions holds; the
reason list contains each trigger exactly when its condition fires (so every
firing trigger is reported, and in particular pnl ≤ -STOP_LOSS always puts
the stop trigger in the list); a position whose ticker has no current price
is skipped unchanged and survives the whole run un-closed. -/
theorem exit_engine_spec :
    (∀ (pnl r5 blended : ℚ) (dh : Int),
      (doSell pnl r5 blended dh = true ↔
        (pnl ≤ -STOP_LOSS ∨ TAKE_PROFIT ≤ pnl ∨ r5 ≤ 0 ∨
          blended < SENT_EXIT_MIN ∨ HOLD_DAYS_MAX ≤ dh)) ∧
      (doSell pnl r5 blended dh = true ↔ exitTriggers pnl r5 blended dh ≠ []) ∧
      ("stop -8%" ∈ exitTriggers pnl r5 blended dh ↔ pnl ≤ -STOP_LOSS) ∧
      ("take +5%" ∈ exitTriggers pnl r5 blended dh ↔ TAKE_PROFIT ≤ pnl) ∧
      ("momentum<=0" ∈ exitTriggers pnl r5 blended dh ↔ r5 ≤ 0) ∧
      ("sent_norm<0.20" ∈ exitTriggers pnl r5 blended dh ↔ blended < SENT_EXIT_MIN) ∧
      ("time>3d" ∈ exitTriggers pnl r5 blended dh ↔ HOLD_DAYS_MAX ≤ dh)) ∧
    (∀ (env : PipeEnv) (acc : List Position × List SellRow) (pos : Position) (price : ℚ),
      env.lastClose pos.ticker = some price →
      (doSell ((price - pos.entry_price) / pos.entry_price)
          (getD0 env.r5 pos.ticker) (blendedSent env pos.ticker)
          (env.today - pos.entry_date) = true →
        sellStep env acc pos =
          (close_position acc.1 pos.ticker,
           acc.2 ++ [{ ticker := pos.ticker, qty := pos.qty, price := price,
                       reasons := exitTriggers ((price - pos.entry_price) / pos.entry_price)
                         (getD0 env.r5 pos.ticker) (blendedSent env pos.ticker)
                         (env.today - pos.entry_date) }])) ∧
      (doSell ((price - pos.entry_price) / pos.entry_price)
          (getD0 env.r5 pos.ticker) (blendedSent env pos.ticker)
          (env.today - pos.entry_date) = false →
        sellStep env acc pos = acc)) ∧
    (∀ (env : PipeEnv) (acc : List Position × List SellRow) (pos : Position),
      env.lastClose pos.ticker = none → sellStep env acc pos = acc) ∧
    (∀ (env : PipeEnv) (positions : List Position) (pos : Position),
      env.lastClose pos.ticker = none → pos ∈ positions →
      pos ∈ (exitEngine env positions).1) := by
  refine ⟨?_, ?_, sellStep_no_price, ?_⟩
  · intro pnl r5 blended dh
    exact ⟨doSell_iff_conditions pnl r5 blended dh,
      doSell_iff_triggers_ne_nil pnl r5 blended dh,
      stop_mem_triggers_iff pnl r5 blended dh,
      take_mem_triggers_iff pnl r5 blended dh,
      mom_mem_triggers_iff pnl r5 blended dh,
      sent_mem_triggers_iff pnl r5 blended dh,
      time_mem_triggers_iff pnl r5 blended dh⟩
  · intro env acc pos price h
    constructor
    · intro hs
      rw [sellStep_price env acc pos price h, if_pos hs]
    · intro hs
      rw [sellStep_price env acc pos price h, if_neg (by rw [hs]; exact Bool.false_ne_true)]
  · intro env positions pos hnp hmem
    exact no_price_pos_mem_foldl env positions (positions, []) pos hnp hmem

/-- Concrete run environment for the Exit Engine scenario: current price 91
everywhere, positive momentum, strong sentiment. -/
def envW : PipeEnv :=
  { lastClose := fun _ => some 91, avgVol20 := fun _ => none,
    r5 := fun _ => some 1, newsNorm := fun _ => some 1,
    redditNorm := fun _ => some 1, today := 0 }

/-- Concrete open position: entered at 100 on day 0. -/
def posW : Position := { ticker := "AAPL", qty := 1, entry_price := 100, entry_date := 0 }

/-- The pnl of `posW` at price 91: (91 - 100)/100 = -9%. -/
def pnlW : ℚ := (91 - posW.entry_price) / posW.entry_price

/-- C4 witness: the spec scenario — entry 100, price 91, pnl = -9% ≤ -8% —
sells and carries the stop trigger in the reason list, obtained by applying
the theorem at a concrete environment and position. -/
theorem exit_engine_spec_witness :
    envW.lastClose posW.ticker = some 91 ∧
    doSell pnlW (getD0 envW.r5 posW.ticker) (blendedSent envW posW.ticker)
      (envW.today - posW.entry_date) = true ∧
    sellStep envW ([posW], []) posW =
      (close_position [posW] posW.ticker,
       [] ++ [{ ticker := posW.ticker, qty := posW.qty, price := 91,
                reasons := exitTriggers pnlW (getD0 envW.r5 posW.ticker)
                  (blendedSent envW posW.ticker) (envW.today - posW.entry_date) }]) ∧
    "stop -8%" ∈ exitTriggers pnlW (getD0 envW.r5 posW.ticker)
      (blendedSent envW posW.ticker) (envW.today - posW.entry_date) := by
  have hp : envW.lastClose posW.ticker = some 91 := rfl
  have hstop : pnlW ≤ -STOP_LOSS := by norm_num [pnlW, posW, STOP_LOSS]
  have hsell : doSell pnlW (getD0 envW.r5 posW.ticker) (blendedSent envW posW.ticker)
      (envW.today - posW.entry_date) = true :=
    (exit_engine_spec.1 _ _ _ _).1.mpr (Or.inl hstop)
  exact ⟨hp, hsell, (exit_engine_spec.2.1 envW ([posW], []) posW 91 hp).1 hsell,
    (exit_engine_spec.1 _ _ _ _).2.2.1.mpr hstop⟩

/-- C10: an open position whose ticker has a current price observation but
no news sentiment row and no reddit sentiment row for the current date gets
the 0.0 default on both channels, so the blended sentiment is
0.6*0 + 0.4*0 = 0 < 0.20: the sentiment-floor trigger fires, appears in the
reason list, and the position is closed (its ticker is gone from the working
ledger the Exit Engine hands on). -/
theorem no_sentiment_position_closed :
    ∀ (env : PipeEnv) (positions : List Position) (pos : Position) (price : ℚ),
      pos ∈ positions →
      env.lastClose pos.ticker = some price →
      env.newsNorm pos.ticker = none →
      env.redditNorm pos.ticker = none →
      blendedSent env pos.ticker = 0 ∧
      "sent_norm<0.20" ∈ exitTriggers ((price - pos.entry_price) / pos.entry_price)
        (getD0 env.r5 pos.ticker) (blendedSent env pos.ticker)
        (env.today - pos.entry_date) ∧
      pos.ticker ∉ (exitEngine env positions).1.map Position.ticker := by
  intro env positions pos price hmem hp hn hr
  have hblend : blendedSent env pos.ticker = 0 := by
    rw [blendedSent, getD0, getD0, hn, hr]
    norm_num
  have hlt : blendedSent env pos.ticker < SENT_EXIT_MIN := by
    rw [hblend]
    norm_num [SENT_EXIT_MIN]
  have hsell : doSell ((price - pos.entry_price) / pos.entry_price)
      (getD0 env.r5 pos.ticker) (blendedSent env pos.ticker)
      (env.today - pos.entry_date) = true :=
    (doSell_iff_conditions _ _ _ _).mpr (Or.inr (Or.inr (Or.inr (Or.inl hlt))))
  exact ⟨hblend, (sent_mem_triggers_iff _ _ _ _).mpr hlt,
    sold_ticker_not_mem_foldl env positions (positions, []) pos price hmem hp hsell⟩

/-- Concrete run environment with a current price but no sentiment rows. -/
def envS : PipeEnv :=
  { lastClose := fun _ => some 91, avgVol20 := fun _ => none,
    r5 := fun _ => some 1, newsNorm := fun _ => none,
    redditNorm := fun _ => none, today := 0 }

/-- C10 witness: the concrete position with price data and no sentiment rows
is closed by the run. -/
theorem no_sentiment_position_closed_witness :
    posW ∈ [posW] ∧ envS.lastClose posW.ticker = some 91 ∧
    blendedSent envS posW.ticker = 0 ∧
    posW.ticker ∉ (exitEngine envS [posW]).1.map Position.ticker := by
  have h := no_sentiment_position_closed envS [posW] posW 91
    (List.mem_singleton.mpr rfl) rfl rfl rfl
  exact ⟨List.mem_singleton.mpr rfl, rfl, h.1, h.2.2⟩

/-- C9: when at least 10 tickers pass, the Screener returns exactly the
tickers of the snapshot whose close beats the price floor and whose trailing
average volume beats the volume floor; when fewer than 10 pass it returns
every ticker of the snapshot (the full input universe of the screen,
i.e. all tickers having price data for the target date); a ticker with no
price data for the target date never appears in the screen's output. -/
theorem screener_spec :
    ∀ (env : PipeEnv) (univ : List String),
      (¬ (screenerPassing env univ).length < 10 →
        ∀ t, t ∈ screener env univ ↔
          (t ∈ univ ∧ ∃ c v, env.lastClose t = some c ∧ env.avgVol20 t = some v ∧
            MIN_PRICE < c ∧ MIN_AVG_VOL_20D < v)) ∧
      ((screenerPassing env univ).length < 10 →
        screener env univ = univ.filter (fun t => (env.lastClose t).isSome)) ∧
      (∀ t, env.lastClose t = none → t ∉ screener env univ) := by
  intro env univ
  refine ⟨?_, ?_, ?_⟩
  · intro h t
    rw [screener, if_neg h]
    simp only [screenerPassing, lastCloseIdx, List.mem_filter]
    cases hc : env.lastClose t with
    | none => simp [hc]
    | some c =>
        cases hv : env.avgVol20 t with
        | none => simp [hc, hv]
        | some v => simp [hc, hv, and_assoc]
  · intro h
    rw [screener, if_pos h]
    simp only [lastCloseIdx]
  · intro t h hmem
    rw [screener] at hmem
    have hlc : t ∈ lastCloseIdx env univ := by
      split_ifs at hmem
      · exact hmem
      · exact (List.mem_filter.mp hmem).1
    have := (List.mem_filter.mp hlc).2
    rw [h] at this
    simp at this

/-- Ten-ticker universe in which every name passes both floors. -/
def uA : List String :=
  ["S01", "S02", "S03", "S04", "S05", "S06", "S07", "S08", "S09", "S10"]

def envA : PipeEnv :=
  { lastClose := fun _ => some 10, avgVol20 := fun _ => some 3000000,
    r5 := fun _ => none, newsNorm := fun _ => none,
    redditNorm := fun _ => none, today := 0 }

/-- Twenty-ticker universe: the first six pass the volume floor, the rest
have no 20-day average volume yet. -/
def uP : List String :=
  ["T01", "T02", "T03", "T04", "T05", "T06", "T07", "T08", "T09", "T10",
   "T11", "T12", "T13", "T14", "T15", "T16", "T17", "T18", "T19", "T20"]

def passVol : List String := ["T01", "T02", "T03", "T04", "T05", "T06"]

def envP : PipeEnv :=
  { lastClose := fun _ => some 10,
    avgVol20 := fun t => if t ∈ passVol then some 3000000 else none,
    r5 := fun _ => none, newsNorm := fun _ => none,
    redditNorm := fun _ => none, today := 0 }

theorem decide_price_floor : decide (MIN_PRICE < (10:ℚ)) = true := by
  rw [decide_eq_true_eq]
  norm_num [MIN_PRICE]

theorem decide_vol_floor : decide (MIN_AVG_VOL_20D < (3000000:ℚ)) = true := by
  rw [decide_eq_true_eq]
  norm_num [MIN_AVG_VOL_20D]

theorem screenerPassing_envA : screenerPassing envA uA = uA := by
  simp [screenerPassing, lastCloseIdx, uA, envA, decide_price_floor, decide_vol_floor]

theorem screenerPassing_envP : screenerPassing envP uP = passVol := by
  simp [screenerPassing, lastCloseIdx, uP, passVol, envP,
    decide_price_floor, decide_vol_floor]

/-- C9 witness: with 10 passing tickers the screen is exactly the passing
set; with 6 of 20 passing (below the minimum count) the Screener falls back
to the whole snapshot; a priceless ticker is excluded. -/
theorem screener_spec_witness :
    (¬ (screenerPassing envA uA).length < 10 ∧
      ("S01" ∈ screener envA uA ↔
        ("S01" ∈ uA ∧ ∃ c v, envA.lastClose "S01" = some c ∧
          envA.avgVol20 "S01" = some v ∧ MIN_PRICE < c ∧ MIN_AVG_VOL_20D < v))) ∧
    ((screenerPassing envP uP).length < 10 ∧
      screener envP uP = uP.filter (fun t => (envP.lastClose t).isSome)) ∧
    ((PipeEnv.mk (fun _ => none) (fun _ => none) (fun _ => none)
        (fun _ => none) (fun _ => none) 0).lastClose "Z01" = none ∧
      "Z01" ∉ screener (PipeEnv.mk (fun _ => none) (fun _ => none) (fun _ => none)
        (fun _ => none) (fun _ => none) 0) ["Z01"]) := by
  have hA : ¬ (screenerPassing envA uA).length < 10 := by
    rw [screenerPassing_envA]
    simp [uA]
  have hP : (screenerPassing envP uP).length < 10 := by
    rw [screenerPassing_envP]
    simp [passVol]
  refine ⟨⟨hA, (screener_spec envA uA).1 hA "S01"⟩,
    ⟨hP, (screener_spec envP uP).2.1 hP⟩,
    rfl, (screener_spec _ ["Z01"]).2.2 "Z01" rfl⟩

theorem buildRows_map_ticker (env : PipeEnv) (screened buySet : List String) :
    (buildRows env screened buySet).map Row.ticker = screened := by
  rw [buildRows, List.map_map]
  exact (List.map_congr_left fun t _ => rfl).trans (List.map_id screened)

theorem forceHolds_map_ticker (ot : List String) (rows : List Row) :
    (forceHolds ot rows).map Row.ticker = rows.map Row.ticker := by
  rw [forceHolds, List.map_map]
  apply List.map_congr_left
  intro r _
  by_cases h : r.ticker ∈ ot ∧ r.action = "BUY" <;> simp [h]

theorem forceHolds_buy_not_open (ot : List String) (rows : List Row) (r : Row)
    (hr : r ∈ forceHolds ot rows) (hb : r.action = "BUY") : r.ticker ∉ ot := by
  obtain ⟨r0, _, heq⟩ := List.mem_map.mp hr
  by_cases hc : r0.ticker ∈ ot ∧ r0.action = "BUY"
  · rw [if_pos hc] at heq
    rw [← heq] at hb
    simp at hb
  · rw [if_neg hc] at heq
    rw [← heq]
    intro hmem
    rw [← heq] at hb
    exact hc ⟨hmem, hb⟩

theorem applyBuys_map_ticker (today : Int) (rows : List Row) (led : List Position) :
    (applyBuys today led rows).map Position.ticker =
      led.map Position.ticker ++
        (rows.filter (fun r => decide (r.action = "BUY"))).map Row.ticker := by
  induction rows generalizing led with
  | nil => simp [applyBuys]
  | cons r rows ih =>
      simp only [applyBuys, List.foldl_cons] at ih ⊢
      by_cases h : r.action = "BUY"
      · rw [if_pos h,
          show open_position led r.ticker 1 r.entry_price today =
            led ++ [{ ticker := r.ticker, qty := 1, entry_price := r.entry_price,
                      entry_date := today }] by
            rw [open_position, if_neg (by norm_num : ¬ ((1:Int) ≤ 0))],
          ih, List.filter_cons_of_pos (by simpa using h)]
        simp
      · rw [if_neg h, ih, List.filter_cons_of_neg (by simpa using h)]

/-- C2: a full run preserves the at-most-one-open-position-per-ticker
invariant.  If the universe has no duplicate tickers (load_universe returns
a sorted set) and the Ledger loaded at the start has pairwise-distinct
tickers, then after the Exit Engine's closes, the duplicate-BUY exclusion
(step 10) and the opening of all remaining BUY rows (step 12), the Ledger
handed to save_positions still has pairwise-distinct tickers. -/
theorem pipeline_ledger_ticker_unique (env : PipeEnv) (univ buySet : List String)
    (positions : List Position) (hu : univ.Nodup)
    (hp : (positions.map Position.ticker).Nodup) :
    ((pipelineEndLedger env univ buySet positions).map Position.ticker).Nodup := by
  have hscreen : (screener env univ).Nodup := by
    rw [screener]
    split_ifs
    · exact hu.filter _
    · exact (hu.filter _).filter _
  have hafter : ((exitEngine env positions).1.map Position.ticker).Nodup :=
    hp.sublist ((foldl_sellStep_fst_sublist env positions (positions, [])).map _)
  rw [pipelineEndLedger, applyBuys_map_ticker]
  have hrt : (forceHolds ((exitEngine env positions).1.map Position.ticker)
      (buildRows env (screener env univ) buySet)).map Row.ticker =
      screener env univ := by
    rw [forceHolds_map_ticker, buildRows_map_ticker]
  refine List.Nodup.append hafter ?_ ?_
  · refine List.Nodup.sublist ?_ (hrt ▸ hscreen)
    exact (List.filter_sublist _).map _
  · intro t ht hbt
    obtain ⟨r, hr, rfl⟩ := List.mem_map.mp hbt
    have hrf := List.mem_filter.mp hr
    exact forceHolds_buy_not_open _ _ r hrf.1 (by simpa using hrf.2) ht

/-- Two-ticker environment where both names have a close and no volume. -/
def envU : PipeEnv :=
  { lastClose := fun _ => some 10, avgVol20 := fun _ => none,
    r5 := fun _ => none, newsNorm := fun _ => none,
    redditNorm := fun _ => none, today := 0 }

/-- C2 witness: a concrete run from an empty Ledger over a two-ticker
universe ends with unique tickers. -/
theorem pipeline_ledger_ticker_unique_witness :
    (["A", "B"] : List String).Nodup ∧
    ((([] : List Position)).map Position.ticker).Nodup ∧
    ((pipelineEndLedger envU ["A", "B"] ["A"] []).map Position.ticker).Nodup := by
  have h1 : (["A", "B"] : List String).Nodup := by simp
  have h2 : ((([] : List Position)).map Position.ticker).Nodup := List.nodup_nil
  exact ⟨h1, h2, pipeline_ledger_ticker_unique envU ["A", "B"] ["A"] [] h1 h2⟩

/-- Step-12 opening of a single BUY row, evaluated concretely: the opened
quantity is the hard-coded 1. -/
theorem applyBuys_single_buy_eval :
    applyBuys 0 [] [{ ticker := "XYZ", action := "BUY", entry_price := 100 }] =
      [{ ticker := "XYZ", qty := 1, entry_price := 100, entry_date := 0 }] := by
  simp [applyBuys, open_position]

/-- C3 counterexample: for the BUY row on XYZ at entry price 100, the
Position Sizer computes 125 shares (with the shipped stop-loss, equity and
risk settings), but step 12 opens the position with quantity 1: the
Orchestrator does not obtain the opened quantity from the Position Sizer,
and no zero-quantity downgrade exists. -/
theorem orchestrator_ignores_sizer :
    calculate_position_size 100 STOP_LOSS = 125 ∧
    applyBuys 0 [] [{ ticker := "XYZ", action := "BUY", entry_price := 100 }] =
      [{ ticker := "XYZ", qty := 1, entry_price := 100, entry_date := 0 }] ∧
    (1 : Int) ≠ 125 := by
  refine ⟨?_, applyBuys_single_buy_eval, by norm_num⟩
  rw [sizer_eq_floor 100 STOP_LOSS (by norm_num) (by norm_num [STOP_LOSS]),
    show PORTFOLIO_EQUITY * RISK_PER_TRADE / ((100:ℚ) * STOP_LOSS) = ((125:ℤ):ℚ) by
      norm_num [PORTFOLIO_EQUITY, RISK_PER_TRADE, STOP_LOSS]]
  exact Int.floor_intCast 125

/-- C3 amended: the Orchestrator's Ledger update opens every BUY with the
fixed quantity 1, never consulting the Position Sizer: every position in the
updated Ledger either was already there or has quantity exactly 1.  (The
only quantity guard is open_position's own refusal of qty ≤ 0, which the
constant 1 never hits; no BUY is downgraded to HOLD for a zero sized
quantity.) -/
theorem applyBuys_qty_one (today : Int) (rows : List Row) (led : List Position)
    (p : Position) (hp : p ∈ applyBuys today led rows) : p ∈ led ∨ p.qty = 1 := by
  induction rows generalizing led with
  | nil => exact Or.inl hp
  | cons r rows ih =>
      simp only [applyBuys, List.foldl_cons] at ih hp
      rcases ih _ hp with hmem | hq
      · split_ifs at hmem with h
        · rw [open_position, if_neg (by norm_num : ¬ ((1:Int) ≤ 0))] at hmem
          rcases List.mem_append.mp hmem with h' | h'
          · exact Or.inl h'
          · right
            rw [List.mem_singleton.mp h']
        · exact Or.inl hmem
      · exact Or.inr hq

/-- C3 amended, witness: the concrete opened position has quantity 1. -/
theorem applyBuys_qty_one_witness :
    ({ ticker := "XYZ", qty := 1, entry_price := 100, entry_date := 0 } : Position) ∈
      applyBuys 0 [] [{ ticker := "XYZ", action := "BUY", entry_price := 100 }] ∧
    (({ ticker := "XYZ", qty := 1, entry_price := 100, entry_date := 0 } : Position) ∈
        ([] : List Position) ∨
      ({ ticker := "XYZ", qty := 1, entry_price := 100, entry_date := 0 } : Position).qty = 1) := by
  have hmem : ({ ticker := "XYZ", qty := 1, entry_price := 100, entry_date := 0 } : Position) ∈
      applyBuys 0 [] [{ ticker := "XYZ", action := "BUY", entry_price := 100 }] := by
    rw [applyBuys_single_buy_eval]
    exact List.mem_singleton.mpr rfl
  exact ⟨hmem, applyBuys_qty_one 0 _ [] _ hmem⟩

end TradeMVP
